import Mathlib

/-!
# FlexiSheet core — shallow embedding

A shallow embedding of the editing / validation / row-tree core of the
FlexiSheet repository, together with theorems checking the claims of the
natural-language specification against the code.

Source files embedded:
* `src/components/sheet-table/utils.ts` — `getColumnKey`, `parseAndValidate`,
  `handleKeyDown`, `handlePaste`, `isRowDisabled`;
* `src/components/sheet-table/index.tsx` — `handleCellFocus`,
  `handleCellInput`, `handleCellBlur`, the inline `onKeyDown` accelerator
  guard, and the `contentEditable={not isDisabled}` rendering of each cell;
* `src/app/add-rows/page.tsx` — `addSubRowToRow`, `removeRowRecursively`;
* `src/schemas/row-data-schema.ts` — the concrete Zod validators used by
  the demo pages (`rate` = number 0..10000, etc.).

JavaScript numbers are modelled as exact rationals (`Rat`); the claims under
check involve only small decimal literals where IEEE-754 rounding is exact.
Zod schemas are modelled by the small inductive `ZodSchema`, covering exactly
the combinators the repository uses (`z.number()` with `min`/`max` checks,
`z.string().min`, `.optional()`), with Zod v3's observable behaviour:
`.optional()` wraps the schema in a `ZodOptional` node with its own
`_def.typeName`, and `safeParse` reports the first failing issue's message.
-/

/-- A JavaScript runtime value as it flows through the cell edit pipeline:
a string (the raw cell text), a number, or `undefined`. -/
inductive JValue where
  | str (s : String)
  | num (q : Rat)
  | undef
  deriving DecidableEq, Repr

/-- A numeric refinement check attached to a `z.number()` schema, with the
custom message supplied at the call site (`z.number().min(0, msg)` …). -/
inductive NumCheck where
  | min (bound : Rat) (msg : String)
  | max (bound : Rat) (msg : String)
  deriving DecidableEq, Repr

/-- A string refinement check attached to a `z.string()` schema. -/
inductive StrCheck where
  | minLen (bound : Nat) (msg : String)
  deriving DecidableEq, Repr

/-- The Zod schemas the repository builds: `z.number()` with checks,
`z.string()` with checks, and `.optional()` wrapping. -/
inductive ZodSchema where
  | zNumber (checks : List NumCheck)
  | zString (checks : List StrCheck)
  | zOptional (inner : ZodSchema)
  deriving DecidableEq, Repr

/-- `(schema as any)._def.typeName` — the tag the TS code branches on.
In Zod v3 `.optional()` produces a `ZodOptional` wrapper whose `typeName`
is "ZodOptional", not the inner "ZodNumber". -/
def ZodSchema.typeName : ZodSchema → String
  | .zNumber _ => "ZodNumber"
  | .zString _ => "ZodString"
  | .zOptional _ => "ZodOptional"

/-- Evaluate one numeric check, returning its message on failure. -/
def NumCheck.run (q : Rat) : NumCheck → Option String
  | .min b msg => if q < b then some msg else none
  | .max b msg => if b < q then some msg else none

/-- Evaluate one string check, returning its message on failure. -/
def StrCheck.run (s : String) : StrCheck → Option String
  | .minLen b msg => if s.length < b then some msg else none

/-- First failing check's message, mirroring `result.error.issues[0].message`
(Zod runs checks in chain order and reports issues in that order). -/
def firstIssue {α : Type} (checks : List α) (run : α → Option String) : Option String :=
  match checks with
  | [] => none
  | c :: cs =>
    match run c with
    | some msg => some msg
    | none => firstIssue cs run

/-- `schema.safeParse(v)` observed through the lens the code uses:
`none` for success, `some msg` for `result.error.issues[0].message`.
Invalid-type messages are Zod v3's defaults ("Required" for a missing
required value, "Expected number, received string" for a type mismatch). -/
def ZodSchema.safeParse : ZodSchema → JValue → Option String
  | .zNumber checks, .num q => firstIssue checks (NumCheck.run q)
  | .zNumber _, .str _ => some "Expected number, received string"
  | .zNumber _, .undef => some "Required"
  | .zString checks, .str s => firstIssue checks (StrCheck.run s)
  | .zString _, .num _ => some "Expected string, received number"
  | .zString _, .undef => some "Required"
  | .zOptional _, .undef => none
  | .zOptional inner, v => inner.safeParse v

/-- `ExtendedColumnDef` restricted to the fields the core logic reads:
`id`, `accessorKey` and the optional `validationSchema`. -/
structure ColumnDef where
  id : Option String
  accessorKey : Option String
  validationSchema : Option ZodSchema
  deriving DecidableEq, Repr

/-- utils.ts `getColumnKey`: `colDef.id ?? colDef.accessorKey ?? ""`. -/
def getColumnKey (colDef : ColumnDef) : String :=
  colDef.id.getD (colDef.accessorKey.getD "")

/-! ## ECMAScript `parseFloat`

`parseFloat` is a JS builtin; it is modelled here from the ECMAScript
specification for decimal literals: skip leading whitespace, optional sign,
digits, optional fraction, optional exponent, and accept the longest valid
numeric leading part of the input ("12abc" parses as 12).  `none` models the
`NaN` result (no digits found).  The `Infinity` literal and IEEE-754
rounding of the mathematical value are not modelled; no claim depends on
them. -/

/-- Digits to a natural number, most significant first. -/
def digitsToNat (ds : List Char) : Nat :=
  ds.foldl (fun acc c => acc * 10 + (c.toNat - '0'.toNat)) 0

/-- JavaScript `String.prototype.trim`, spelt out over the character list
(the value equals core `String.trim`; this form evaluates by `decide`). -/
def jsTrim (s : String) : String :=
  String.mk
    (((s.toList.dropWhile Char.isWhitespace).reverse.dropWhile Char.isWhitespace).reverse)

/-- JavaScript `String.prototype.toLowerCase` on the ASCII keys the keydown
handler compares against. -/
def jsToLowerChar (c : Char) : Char :=
  if 'A' ≤ c ∧ c ≤ 'Z' then Char.ofNat (c.toNat + 32) else c

/-- Lower-case a whole key string. -/
def jsToLower (s : String) : String :=
  String.mk (s.toList.map jsToLowerChar)

/-- ECMAScript `parseFloat` on decimal literals; `none` models `NaN`.
The mathematical value `sign · mantissa · 10 ^ exp` is assembled with
`mkRat` over an integer numerator and a power-of-ten denominator. -/
def parseFloatJS (s : String) : Option Rat :=
  let cs := s.toList.dropWhile Char.isWhitespace
  let signAndRest : Int × List Char :=
    match cs with
    | '-' :: t => (-1, t)
    | '+' :: t => (1, t)
    | _ => (1, cs)
  let sign := signAndRest.1
  let afterSign := signAndRest.2
  let intPart := afterSign.takeWhile Char.isDigit
  let afterInt := afterSign.dropWhile Char.isDigit
  let fracAndRest : List Char × List Char :=
    match afterInt with
    | '.' :: t => (t.takeWhile Char.isDigit, t.dropWhile Char.isDigit)
    | _ => ([], afterInt)
  let fracPart := fracAndRest.1
  let afterFrac := fracAndRest.2
  if intPart.isEmpty && fracPart.isEmpty then none
  else
    let mantissa : Int :=
      sign * ((digitsToNat intPart * 10 ^ fracPart.length + digitsToNat fracPart : Nat) : Int)
    let exp : Int :=
      match afterFrac with
      | 'e' :: t =>
        let esignAndRest : Int × List Char :=
          match t with
          | '-' :: u => (-1, u)
          | '+' :: u => (1, u)
          | _ => (1, t)
        let eds := esignAndRest.2.takeWhile Char.isDigit
        if eds.isEmpty then 0 else esignAndRest.1 * (digitsToNat eds : Int)
      | 'E' :: t =>
        let esignAndRest : Int × List Char :=
          match t with
          | '-' :: u => (-1, u)
          | '+' :: u => (1, u)
          | _ => (1, t)
        let eds := esignAndRest.2.takeWhile Char.isDigit
        if eds.isEmpty then 0 else esignAndRest.1 * (digitsToNat eds : Int)
      | _ => 0
    some
      (if 0 ≤ exp then mkRat (mantissa * ((10 ^ exp.toNat : Nat) : Int)) (10 ^ fracPart.length)
       else mkRat mantissa (10 ^ fracPart.length * 10 ^ (-exp).toNat))

/-- Result record of utils.ts `parseAndValidate`. -/
structure ParseResult where
  parsedValue : JValue
  errorMessage : Option String
  deriving DecidableEq, Repr

/-- utils.ts `parseAndValidate(rawValue, colDef)`:
no schema ⇒ raw text with no error; a schema whose `_def.typeName` is
"ZodNumber" coerces empty/whitespace text to `undefined` and other text via
`parseFloat` (`NaN` passes the raw string through); then `safeParse` runs on
the (possibly coerced) value and the first issue message is reported. -/
def parseAndValidate (rawValue : String) (colDef : ColumnDef) : ParseResult :=
  match colDef.validationSchema with
  | none => { parsedValue := .str rawValue, errorMessage := none }
  | some schema =>
    let parsedValue : JValue :=
      if schema.typeName = "ZodNumber" then
        if jsTrim rawValue = "" then .undef
        else
          match parseFloatJS rawValue with
          | none => .str rawValue
          | some q => .num q
      else .str rawValue
    { parsedValue := parsedValue, errorMessage := schema.safeParse parsedValue }

/-! ## Keystroke and paste filtering (utils.ts + the inline guard in index.tsx) -/

/-- The fields of a keyboard event the handlers read. -/
structure KeyEvent where
  key : String
  ctrlKey : Bool
  metaKey : Bool
  deriving DecidableEq, Repr

/-- utils.ts `allowedKeys` for numeric columns (note: only the left and
right arrow keys appear). -/
def allowedKeys : List String :=
  ["Backspace", "Delete", "ArrowLeft", "ArrowRight", "Tab", "Home", "End", ".", "-"]

/-- The regex test used on `e.key` in utils.ts — a single character 0-9. -/
def isDigitKey (k : String) : Bool :=
  match k.toList with
  | [c] => c.isDigit
  | _ => false

/-- utils.ts `handleKeyDown`: returns `true` iff `e.preventDefault()` is
called (the keystroke is rejected). Non-numeric or schema-less columns never
reject. -/
def handleKeyDown (e : KeyEvent) (colDef : ColumnDef) : Bool :=
  match colDef.validationSchema with
  | none => false
  | some schema =>
    if schema.typeName = "ZodNumber" then
      !(allowedKeys.contains e.key) && !(isDigitKey e.key)
    else false

/-- The inline `onKeyDown` handler wired onto each cell in index.tsx:
Ctrl/Meta plus a/c/x/z/v returns before `handleKeyDown` runs, so those
accelerator combinations are never blocked. `true` iff the key is rejected. -/
def cellOnKeyDown (e : KeyEvent) (colDef : ColumnDef) : Bool :=
  if (e.ctrlKey || e.metaKey)
      && (["a", "c", "x", "z", "v"].contains (jsToLower e.key)) then
    false
  else handleKeyDown e colDef

/-- The anchored regex from utils.ts `handlePaste`: an optional minus sign,
digits, an optional dot, digits, covering the whole clipboard text. -/
def matchesPasteFloat (s : String) : Bool :=
  let cs := s.toList
  let cs1 := match cs with | '-' :: t => t | _ => cs
  let cs2 := cs1.dropWhile Char.isDigit
  let cs3 := match cs2 with | '.' :: t => t | _ => cs2
  (cs3.dropWhile Char.isDigit).isEmpty

/-- utils.ts `handlePaste`: `true` iff the paste is blocked. -/
def handlePaste (clipboardText : String) (colDef : ColumnDef) : Bool :=
  match colDef.validationSchema with
  | none => false
  | some schema =>
    if schema.typeName = "ZodNumber" then !(matchesPasteFloat clipboardText)
    else false

/-! ## Disablement policy (utils.ts `isRowDisabled`, membership on columns) -/

/-- The `disabledRows` prop: either a flat array of row indices or a record
mapping group keys to arrays of row indices (the variant shape the code
distinguishes with `Array.isArray`). -/
inductive DisabledRows where
  | flat (idxs : List Nat)
  | perGroup (entries : List (String × List Nat))
  deriving DecidableEq, Repr

/-- `rows[groupKey]` on the record shape (`undefined` when absent). -/
def lookupGroup (entries : List (String × List Nat)) (groupKey : String) : Option (List Nat) :=
  (entries.find? (fun p => p.1 = groupKey)).map Prod.snd

/-- utils.ts `isRowDisabled(rows, groupKey, rowIndex)`:
absent prop ⇒ false; flat array ⇒ index membership regardless of group;
record ⇒ membership within `rows[groupKey]`, absent entry ⇒ false. -/
def isRowDisabled (rows : Option DisabledRows) (groupKey : String) (rowIndex : Nat) : Bool :=
  match rows with
  | none => false
  | some (.flat idxs) => idxs.contains rowIndex
  | some (.perGroup entries) =>
    match lookupGroup entries groupKey with
    | none => false
    | some idxs => idxs.contains rowIndex

/-- index.tsx per-cell disablement:
`disabled || disabledColumns.includes(colKey)`. -/
def cellIsDisabled (disabledRows : Option DisabledRows) (disabledColumns : List String)
    (groupKey : String) (rowIndex : Nat) (colKey : String) : Bool :=
  isRowDisabled disabledRows groupKey rowIndex || disabledColumns.contains colKey

/-- index.tsx renders each cell with `contentEditable={!isDisabled}`; a cell
with `contentEditable` false is inert — the browser gives it no focus and
delivers none of the keydown / paste / input / blur editing events, so none
of the wired handlers ever runs for it. -/
def cellContentEditable (disabledRows : Option DisabledRows) (disabledColumns : List String)
    (groupKey : String) (rowIndex : Nat) (colKey : String) : Bool :=
  !(cellIsDisabled disabledRows disabledColumns groupKey rowIndex colKey)

/-! ## Cell edit controller (index.tsx) -/

/-- A TanStack table row as the handlers see it: the stable string `id`, the
numeric `index`, and `original` — the reference identity of the data row the
component compared with `===`, modelled as a token. -/
structure TanRow where
  id : String
  index : Nat
  original : Nat
  deriving DecidableEq, Repr

/-- index.tsx `findTableRow`: `table.getRowModel().rows.find((r) => r.original === rowData)`. -/
def findTableRow (rows : List TanRow) (rowData : Nat) : Option TanRow :=
  rows.find? (fun r => r.original = rowData)

/-- `cellErrors` state: groupKey → rowId → colKey → entry. The outer
`Option` is entry presence; the inner `Option String` is the stored error
message, `none` standing for the stored `null` of a currently-valid cell. -/
def ErrMap : Type := String → String → String → Option (Option String)

/-- `cellOriginalContent` state: groupKey → rowId → colKey → captured text. -/
def OrigMap : Type := String → String → String → Option String

/-- The copy-on-write nested-spread update performed by `setCellErrors`:
only the (groupKey, rowId, colKey) entry changes. -/
def setErrEntry (m : ErrMap) (g r c : String) (msg : Option String) : ErrMap :=
  fun g' r' c' => if g' = g ∧ r' = r ∧ c' = c then some msg else m g' r' c'

/-- The nested-spread update performed by `setCellOriginalContent`. -/
def setOrigEntry (m : OrigMap) (g r c : String) (text : String) : OrigMap :=
  fun g' r' c' => if g' = g ∧ r' = r ∧ c' = c then some text else m g' r' c'

/-- The first argument the component passes to the host's `onEdit`
callback — in JavaScript either a number or a string at runtime. -/
inductive JsArg where
  | numIdx (n : Nat)
  | strId (s : String)
  deriving DecidableEq, Repr

/-- What a blur produces: the next `cellErrors` state and the commit event
(if any) emitted to the host through `onEdit`. -/
structure BlurResult where
  cellErrors : ErrMap
  commit : Option (JsArg × String × JValue)

/-- index.tsx `handleCellFocus`: capture the cell's current text into
`cellOriginalContent`, keyed by (groupKey, rowId, colKey); a lookup miss on
the row model returns with no effect. -/
def handleCellFocus (rows : List TanRow) (origMap : OrigMap)
    (groupKey : String) (rowData : Nat) (colDef : ColumnDef)
    (initialText : String) : OrigMap :=
  match findTableRow rows rowData with
  | none => origMap
  | some tanStackRow =>
    setOrigEntry origMap groupKey tanStackRow.id (getColumnKey colDef) initialText

/-- index.tsx `handleCellInput`: live validation on each input event —
update the cell's error entry, never commit; no-op on lookup miss or on a
disabled cell. -/
def handleCellInput (rows : List TanRow) (disabledRows : Option DisabledRows)
    (disabledColumns : List String) (errMap : ErrMap)
    (groupKey : String) (rowData : Nat) (colDef : ColumnDef)
    (rawValue : String) : ErrMap :=
  match findTableRow rows rowData with
  | none => errMap
  | some tanStackRow =>
    let rowId := tanStackRow.id
    let rowIndex := tanStackRow.index
    let colKey := getColumnKey colDef
    if isRowDisabled disabledRows groupKey rowIndex || disabledColumns.contains colKey then
      errMap
    else
      setErrEntry errMap groupKey rowId colKey (parseAndValidate rawValue colDef).errorMessage

/-- index.tsx `handleCellBlur`: lookup miss ⇒ no-op; disabled cell ⇒ no-op;
unchanged text (against the captured original, `?? ""`) ⇒ no-op; otherwise
run `parseAndValidate`, store the error entry, and when the error is null
emit `onEdit(tanStackRow.index, colKey, parsedValue)` — note the source
passes the numeric `tanStackRow.index`, not the string `rowId`. -/
def handleCellBlur (rows : List TanRow) (disabledRows : Option DisabledRows)
    (disabledColumns : List String) (origMap : OrigMap) (errMap : ErrMap)
    (groupKey : String) (rowData : Nat) (colDef : ColumnDef)
    (rawValue : String) : BlurResult :=
  match findTableRow rows rowData with
  | none => { cellErrors := errMap, commit := none }
  | some tanStackRow =>
    let rowId := tanStackRow.id
    let rowIndex := tanStackRow.index
    let colKey := getColumnKey colDef
    if isRowDisabled disabledRows groupKey rowIndex || disabledColumns.contains colKey then
      { cellErrors := errMap, commit := none }
    else
      let originalValue := (origMap groupKey rowId colKey).getD ""
      if rawValue = originalValue then
        { cellErrors := errMap, commit := none }
      else
        let result := parseAndValidate rawValue colDef
        let errMap' := setErrEntry errMap groupKey rowId colKey result.errorMessage
        match result.errorMessage with
        | some _ => { cellErrors := errMap', commit := none }
        | none =>
          { cellErrors := errMap'
            commit := some (JsArg.numIdx tanStackRow.index, colKey, result.parsedValue) }

/-! ## Row tree and mutation engine (src/app/add-rows/page.tsx)

`RowData` follows `row-data-schema.ts` plus the `id`/`subRows` fields the
add-rows page uses; `subRows ?? []` is modelled by an always-present list.
The TS `rows.filter(...).map(...)` / `rows.map(...)` recursions are unfolded
into a single list recursion with identical behaviour; the
`row.subRows?.length` truthiness guards are kept as `isEmpty` tests. -/

inductive RowData where
  | mk (id : String) (materialName : String) (cft rate amount : Rat)
      (subRows : List RowData)

/-- The node's id. -/
def RowData.id : RowData → String
  | .mk i _ _ _ _ _ => i

/-- The node's children. -/
def RowData.subRows : RowData → List RowData
  | .mk _ _ _ _ _ s => s

/-- The sub-row constructed by `addSubRowToRow`; the `nanoid()` call is
modelled by the `freshId` parameter (the source comments it as "Generate a
guaranteed unique ID", so theorems take its freshness as a hypothesis). -/
def newSubRow (freshId : String) : RowData :=
  .mk freshId "New SubRow" 0 0 0 []

/-- add-rows/page.tsx `addSubRowToRow(rows, parentId)`: append a new child
to every node whose id is `parentId`; recurse into non-empty `subRows` of
non-matching nodes; leave everything else as given. -/
def addSubRowToRow (rows : List RowData) (parentId : String) (freshId : String) :
    List RowData :=
  match rows with
  | [] => []
  | .mk i mn c rt am subs :: rest =>
    (if i = parentId then
      RowData.mk i mn c rt am (subs ++ [newSubRow freshId])
    else
      RowData.mk i mn c rt am
        (if subs.isEmpty then subs else addSubRowToRow subs parentId freshId))
    :: addSubRowToRow rest parentId freshId

/-- add-rows/page.tsx `removeRowRecursively(rows, rowId)`: drop every node
whose id is `rowId` (together with its whole subtree, as `filter` does) and
rebuild the `subRows` of the remaining nodes. -/
def removeRowRecursively (rows : List RowData) (rowId : String) : List RowData :=
  match rows with
  | [] => []
  | .mk i mn c rt am subs :: rest =>
    if i = rowId then removeRowRecursively rest rowId
    else
      RowData.mk i mn c rt am
        (if subs.isEmpty then subs else removeRowRecursively subs rowId)
      :: removeRowRecursively rest rowId

/-- Depth-first search for a node by id, the lookup the spec's Row Tree
Model exposes (`find(tree, id)`) and the traversal order `updateNestedRow`
uses in the page code: the node itself first, then its subtree, then its
later siblings. -/
def findRowById (rows : List RowData) (targetId : String) : Option RowData :=
  match rows with
  | [] => none
  | .mk i mn c rt am subs :: rest =>
    if i = targetId then some (.mk i mn c rt am subs)
    else
      match findRowById subs targetId with
      | some r => some r
      | none => findRowById rest targetId

/-- All ids in the forest, in depth-first order. -/
def idsOf (rows : List RowData) : List String :=
  match rows with
  | [] => []
  | .mk i _ _ _ _ subs :: rest => i :: (idsOf subs ++ idsOf rest)

/-! ## Concrete fixtures from the repository's schema and demo pages -/

/-- row-data-schema.ts: `z.string().min(1, "Material name cannot be empty.")`. -/
def materialNameSchema : ZodSchema :=
  .zString [.minLen 1 "Material name cannot be empty."]

/-- row-data-schema.ts: `z.number().min(0, "CFT cannot be negative.")` (the
`.optional()` is commented out in the source with a BUG note). -/
def cftSchema : ZodSchema :=
  .zNumber [.min 0 "CFT cannot be negative."]

/-- row-data-schema.ts: `z.number().min(0, "Rate cannot be negative.").max(10000, "Rate cannot exceed 10000.")`. -/
def rateSchema : ZodSchema :=
  .zNumber [.min 0 "Rate cannot be negative.", .max 10000 "Rate cannot exceed 10000."]

/-- row-data-schema.ts: `z.number().min(0, "Amount cannot be negative.")`. -/
def amountSchema : ZodSchema :=
  .zNumber [.min 0 "Amount cannot be negative."]

/-- README basic-usage example: `z.number().nonnegative().optional()` — an
optional numeric validator (Zod v3 default message for `nonnegative`). -/
def cftOptionalSchema : ZodSchema :=
  .zOptional (.zNumber [.min 0 "Number must be greater than or equal to 0"])

/-- The `rate` column of the demo pages. -/
def rateColumn : ColumnDef :=
  { id := none, accessorKey := some "rate", validationSchema := some rateSchema }

/-- The `cft` column as the README's basic-usage example declares it. -/
def cftOptionalColumn : ColumnDef :=
  { id := none, accessorKey := some "cft", validationSchema := some cftOptionalSchema }

/-- The `cft` column with the repository's current required schema. -/
def cftRequiredColumn : ColumnDef :=
  { id := none, accessorKey := some "cft", validationSchema := some cftSchema }

/-- The empty `cellErrors` state (`useState({})`). -/
def emptyErrMap : ErrMap := fun _ _ _ => none

/-- The empty `cellOriginalContent` state (`useState({})`). -/
def emptyOrigMap : OrigMap := fun _ _ _ => none

/-! ## Edit-session model

The per-cell component state of index.tsx: `cellOriginalContent` (written by
the focus handler) and `cellErrors` (written by the input and blur
handlers). A session on one cell is focus, then a list of input events,
then blur; the DOM ordering guarantee (focus before inputs before blur, per
cell) is what makes this a faithful trace. -/

structure CellState where
  orig : OrigMap
  errs : ErrMap

/-- The focus event's effect on component state. -/
def focusStep (rows : List TanRow) (g : String) (rowData : Nat) (colDef : ColumnDef)
    (st : CellState) (text : String) : CellState :=
  { st with orig := handleCellFocus rows st.orig g rowData colDef text }

/-- One input event's effect on component state. -/
def inputStep (rows : List TanRow) (dr : Option DisabledRows) (dc : List String)
    (g : String) (rowData : Nat) (colDef : ColumnDef)
    (st : CellState) (text : String) : CellState :=
  { st with errs := handleCellInput rows dr dc st.errs g rowData colDef text }

/-- Run a whole sequence of input events. -/
def runInputs (rows : List TanRow) (dr : Option DisabledRows) (dc : List String)
    (g : String) (rowData : Nat) (colDef : ColumnDef)
    (st : CellState) (texts : List String) : CellState :=
  texts.foldl (inputStep rows dr dc g rowData colDef) st

/-! ## The claim's reading of the keydown allowlist

The specification describes the numeric-column allowlist as "delete,
backspace, arrows, tab, home, end". The following two definitions state
that reading (all four arrow keys) so it can be compared with the code's
`allowedKeys`, which contains only `ArrowLeft` and `ArrowRight`. -/

/-- The navigation/editing allowlist exactly as the specification words it,
with "arrows" read as all four arrow keys. -/
def specNavigationKeys : List String :=
  ["Delete", "Backspace", "ArrowLeft", "ArrowRight", "ArrowUp", "ArrowDown",
   "Tab", "Home", "End"]

/-- Whether the specification says a plain (non-accelerator) key on a
numeric column is rejected: not a digit, not the decimal point, not the
minus sign, and not in the spec's navigation allowlist. -/
def specKeyRejectedOnNumeric (e : KeyEvent) : Bool :=
  !(isDigitKey e.key) && !(e.key = ".") && !(e.key = "-")
    && !(specNavigationKeys.contains e.key)

/-! ## Demo fixtures used by concrete evaluations -/

/-- A two-row TanStack row model: stable string ids "row-1"/"row-2", with
the numeric indices 0/1 and distinct `original` reference tokens. -/
def demoRows : List TanRow :=
  [{ id := "row-1", index := 0, original := 100 },
   { id := "row-2", index := 1, original := 101 }]

/-- `cellOriginalContent` after focusing the rate cell of "row-2" showing
"93" (the NC Thinner row of the demo data). -/
def demoOrigMap : OrigMap :=
  setOrigEntry emptyOrigMap "ungrouped" "row-2" "rate" "93"

/-- `cellOriginalContent` after focusing the cft cell of "row-2" showing
"0.202". -/
def demoCftOrigMap : OrigMap :=
  setOrigEntry emptyOrigMap "ungrouped" "row-2" "cft" "0.202"

/-- The nested demo forest from add-rows/page.tsx (ids "row-2.1"/"row-2.2"
nested under "row-2"). -/
def demoTree : List RowData :=
  [.mk "row-1" "Ultra Nitro Sealer" 1 164 5 [],
   .mk "row-2" "NC Thinner" 2 93 19
     [.mk "row-2.1" "NC Thinner 1" 3 94 20 [],
      .mk "row-2.2" "NC Thinner 2" 4 95 20 []]]

/-! ## Theorems -/

/-- Structural induction over a forest of `RowData`, giving hypotheses for
both the `subRows` of the head node and the remaining siblings. -/
theorem forestInduction {motive : List RowData → Prop}
    (hnil : motive [])
    (hcons : ∀ (i mn : String) (c rt am : Rat) (subs rest : List RowData),
        motive subs → motive rest → motive (RowData.mk i mn c rt am subs :: rest)) :
    ∀ rows, motive rows
  | [] => hnil
  | .mk i mn c rt am subs :: rest =>
    hcons i mn c rt am subs rest (forestInduction hnil hcons subs)
      (forestInduction hnil hcons rest)

theorem removeRow_guard (subs : List RowData) (tid : String) :
    (if subs.isEmpty then subs else removeRowRecursively subs tid)
      = removeRowRecursively subs tid := by
  cases subs <;> simp [removeRowRecursively]

theorem addSubRow_guard (subs : List RowData) (pid fresh : String) :
    (if subs.isEmpty then subs else addSubRowToRow subs pid fresh)
      = addSubRowToRow subs pid fresh := by
  cases subs <;> simp [addSubRowToRow]

theorem findRowById_eq_none_iff (rows : List RowData) (tid : String) :
    findRowById rows tid = none ↔ tid ∉ idsOf rows := by
  induction rows using forestInduction with
  | hnil => simp [findRowById, idsOf]
  | hcons i mn c rt am subs rest ihsubs ihrest =>
    by_cases hi : i = tid
    · subst hi
      simp [findRowById, idsOf]
    · rcases hsub : findRowById subs tid with _ | r
      · simp only [findRowById, hi, if_false, hsub, idsOf, List.mem_cons, List.mem_append]
        rw [ihrest]
        have htid : ¬ tid = i := fun hh => hi hh.symm
        have hnsub : tid ∉ idsOf subs := ihsubs.mp hsub
        tauto
      · simp only [findRowById, hi, if_false, hsub, idsOf, List.mem_cons, List.mem_append]
        have hmem : tid ∈ idsOf subs := by
          by_contra hc
          rw [← ihsubs] at hc
          rw [hsub] at hc
          exact Option.noConfusion hc
        simp [hmem]

theorem removeRowRecursively_not_mem (rows : List RowData) (tid : String)
    (h : tid ∉ idsOf rows) : removeRowRecursively rows tid = rows := by
  induction rows using forestInduction with
  | hnil => simp [removeRowRecursively]
  | hcons i mn c rt am subs rest ihsubs ihrest =>
    simp only [idsOf, List.mem_cons, List.mem_append] at h
    push_neg at h
    obtain ⟨hne, hsubs, hrest⟩ := h
    have hi : ¬ i = tid := fun hh => hne hh.symm
    rw [removeRowRecursively, if_neg hi, removeRow_guard, ihsubs hsubs, ihrest hrest]

theorem addSubRowToRow_not_mem (rows : List RowData) (pid fresh : String)
    (h : pid ∉ idsOf rows) : addSubRowToRow rows pid fresh = rows := by
  induction rows using forestInduction with
  | hnil => simp [addSubRowToRow]
  | hcons i mn c rt am subs rest ihsubs ihrest =>
    simp only [idsOf, List.mem_cons, List.mem_append] at h
    push_neg at h
    obtain ⟨hne, hsubs, hrest⟩ := h
    have hi : ¬ i = pid := fun hh => hne hh.symm
    rw [addSubRowToRow, if_neg hi, addSubRow_guard, ihsubs hsubs, ihrest hrest]

/-- Claim C8: for every tree and every id, the tree produced by
`removeRowRecursively` for that id contains no node with that id — a
subsequent depth-first find returns not-found (proved for all ids, hence in
particular for every id present before the removal, at any depth). -/
theorem removeRow_then_find_returns_none (rows : List RowData) (tid : String) :
    findRowById (removeRowRecursively rows tid) tid = none := by
  induction rows using forestInduction with
  | hnil => simp [removeRowRecursively, findRowById]
  | hcons i mn c rt am subs rest ihsubs ihrest =>
    by_cases hi : i = tid
    · rw [removeRowRecursively, if_pos hi]
      exact ihrest
    · rw [removeRowRecursively, if_neg hi, removeRow_guard]
      rw [findRowById, if_neg hi, ihsubs]
      exact ihrest

theorem findRowById_addSubRowToRow (rows : List RowData) (pid fresh : String)
    (i mn : String) (c rt am : Rat) (subs : List RowData)
    (hfind : findRowById rows pid = some (.mk i mn c rt am subs))
    (hfresh : fresh ∉ idsOf rows) :
    findRowById (addSubRowToRow rows pid fresh) pid
      = some (.mk i mn c rt am (subs ++ [newSubRow fresh])) := by
  induction rows using forestInduction with
  | hnil => simp [findRowById] at hfind
  | hcons j mn2 c2 rt2 am2 subs2 rest ihsubs ihrest =>
    simp only [idsOf, List.mem_cons, List.mem_append] at hfresh
    push_neg at hfresh
    obtain ⟨hfne, hfsubs, hfrest⟩ := hfresh
    by_cases hj : j = pid
    · rw [findRowById, if_pos hj] at hfind
      injection hfind with hmk
      injection hmk with h1 h2 h3 h4 h5 h6
      subst h1; subst h2; subst h3; subst h4; subst h5; subst h6
      rw [addSubRowToRow, if_pos hj]
      rw [findRowById, if_pos hj]
    · rw [findRowById, if_neg hj] at hfind
      rw [addSubRowToRow, if_neg hj, addSubRow_guard]
      rw [findRowById, if_neg hj]
      rcases hsub : findRowById subs2 pid with _ | r
      · rw [hsub] at hfind
        have hnone : findRowById (addSubRowToRow subs2 pid fresh) pid = none := by
          rw [addSubRowToRow_not_mem subs2 pid fresh
            ((findRowById_eq_none_iff subs2 pid).mp hsub)]
          exact hsub
        rw [hnone]
        exact ihrest hfind hfrest
      · rw [hsub] at hfind
        have hr : r = .mk i mn c rt am subs := by injection hfind
        subst hr
        rw [ihsubs hsub hfsubs]

theorem handleCellBlur_changed (rows : List TanRow) (dr : Option DisabledRows)
    (dc : List String) (origMap : OrigMap) (errMap : ErrMap) (g : String)
    (rowData : Nat) (colDef : ColumnDef) (raw : String) (tr : TanRow)
    (hfind : findTableRow rows rowData = some tr)
    (hdis : (isRowDisabled dr g tr.index || dc.contains (getColumnKey colDef)) = false)
    (hchanged : ¬ raw = (origMap g tr.id (getColumnKey colDef)).getD "") :
    handleCellBlur rows dr dc origMap errMap g rowData colDef raw
      = { cellErrors := setErrEntry errMap g tr.id (getColumnKey colDef)
            (parseAndValidate raw colDef).errorMessage,
          commit :=
            match (parseAndValidate raw colDef).errorMessage with
            | some _ => none
            | none => some (JsArg.numIdx tr.index, getColumnKey colDef,
                (parseAndValidate raw colDef).parsedValue) } := by
  rcases herr : (parseAndValidate raw colDef).errorMessage with _ | msg
  · simp only [handleCellBlur, hfind, hdis, Bool.false_eq_true, if_false,
      if_neg hchanged, herr]
  · simp only [handleCellBlur, hfind, hdis, Bool.false_eq_true, if_false,
      if_neg hchanged, herr]

/-- Claim C1 (code evaluation): on a successful blur commit the component
invokes `onEdit(tanStackRow.index, colKey, parsedValue)` — the first
argument is the numeric row position (here `1`), which is not the row's
stable string id ("row-2"): in JavaScript a number is never strictly equal
to a string, so the id-keyed updaters in the demo pages never match. -/
theorem onEdit_receives_row_index_not_id :
    findTableRow demoRows 101 = some { id := "row-2", index := 1, original := 101 }
    ∧ (handleCellBlur demoRows none [] demoOrigMap emptyErrMap "ungrouped" 101 rateColumn
        "200").commit = some (JsArg.numIdx 1, "rate", JValue.num 200)
    ∧ ∀ s : String, JsArg.numIdx 1 ≠ JsArg.strId s := by
  refine ⟨by decide, by decide, ?_⟩
  intro s h
  exact JsArg.noConfusion h

/-- Claim C1 witness: the committed first argument differs from the row id. -/
theorem onEdit_receives_row_index_not_id_witness :
    JsArg.numIdx 1 ≠ JsArg.strId "row-2" :=
  (onEdit_receives_row_index_not_id).2.2 "row-2"

/-- Claim C2: on a blur for a found, non-disabled cell whose text differs
from the captured original, the cell's error entry is set to the
`errorMessage` of the single `parseAndValidate` run, every other cell's
entry is untouched, and a commit is emitted iff that message is null; in
particular rate text "15000" against the 0–10000 validator stores the
max-bound message and emits no commit. -/
theorem blur_commits_iff_validation_passes
    (rows : List TanRow) (dr : Option DisabledRows) (dc : List String)
    (origMap : OrigMap) (errMap : ErrMap) (g : String) (rowData : Nat)
    (colDef : ColumnDef) (raw : String) (tr : TanRow)
    (hfind : findTableRow rows rowData = some tr)
    (hdis : cellIsDisabled dr dc g tr.index (getColumnKey colDef) = false)
    (hchanged : ¬ raw = (origMap g tr.id (getColumnKey colDef)).getD "") :
    ((handleCellBlur rows dr dc origMap errMap g rowData colDef raw).cellErrors g tr.id
        (getColumnKey colDef) = some (parseAndValidate raw colDef).errorMessage)
    ∧ (∀ g' r' c', ¬(g' = g ∧ r' = tr.id ∧ c' = getColumnKey colDef) →
        (handleCellBlur rows dr dc origMap errMap g rowData colDef raw).cellErrors g' r' c'
          = errMap g' r' c')
    ∧ ((handleCellBlur rows dr dc origMap errMap g rowData colDef raw).commit ≠ none ↔
        (parseAndValidate raw colDef).errorMessage = none)
    ∧ (parseAndValidate "15000" rateColumn).errorMessage = some "Rate cannot exceed 10000."
    ∧ (handleCellBlur demoRows none [] demoOrigMap emptyErrMap "ungrouped" 101 rateColumn
        "15000").commit = none
    ∧ (handleCellBlur demoRows none [] demoOrigMap emptyErrMap "ungrouped" 101 rateColumn
        "15000").cellErrors "ungrouped" "row-2" "rate"
        = some (some "Rate cannot exceed 10000.") := by
  have hout := handleCellBlur_changed rows dr dc origMap errMap g rowData colDef raw tr hfind
    (by simpa [cellIsDisabled] using hdis) hchanged
  refine ⟨?_, ?_, ?_, by decide, by decide, by decide⟩
  · rw [hout]
    simp [setErrEntry]
  · intro g' r' c' hne
    rw [hout]
    simp only [setErrEntry]
    rw [if_neg hne]
  · rw [hout]
    rcases herr : (parseAndValidate raw colDef).errorMessage with _ | msg <;> simp [herr]

/-- Claim C2 witness: the 15000-rate scenario satisfies the hypotheses and
the commit-iff-valid conclusion instantiates there. -/
theorem blur_commits_iff_validation_passes_witness :
    (findTableRow demoRows 101 = some { id := "row-2", index := 1, original := 101 }
      ∧ cellIsDisabled none [] "ungrouped" 1 (getColumnKey rateColumn) = false
      ∧ ¬ "15000" = ((demoOrigMap "ungrouped" "row-2" (getColumnKey rateColumn)).getD ""))
    ∧ ((handleCellBlur demoRows none [] demoOrigMap emptyErrMap "ungrouped" 101 rateColumn
          "15000").commit ≠ none ↔
        (parseAndValidate "15000" rateColumn).errorMessage = none) :=
  ⟨⟨by decide, by decide, by decide⟩,
    (blur_commits_iff_validation_passes demoRows none [] demoOrigMap emptyErrMap "ungrouped"
      101 rateColumn "15000" { id := "row-2", index := 1, original := 101 }
      (by decide) (by decide) (by decide)).2.2.1⟩

theorem runInputs_preserves_orig (rows : List TanRow) (dr : Option DisabledRows)
    (dc : List String) (g : String) (rowData : Nat) (colDef : ColumnDef)
    (st : CellState) (texts : List String) :
    (runInputs rows dr dc g rowData colDef st texts).orig = st.orig := by
  induction texts generalizing st with
  | nil => rfl
  | cons t ts ih =>
    show (runInputs rows dr dc g rowData colDef
        (inputStep rows dr dc g rowData colDef st t) ts).orig = st.orig
    rw [ih]
    rfl

/-- Claim C3: a blur whose text equals the text captured at focus time has
no side effect — no commit and no change to the error state — no matter how
many input events (each updating the error entry) happened in between. -/
theorem unchanged_text_blur_is_noop (rows : List TanRow) (dr : Option DisabledRows)
    (dc : List String) (st0 : CellState) (g : String) (rowData : Nat)
    (colDef : ColumnDef) (t : String) (inputs : List String) :
    handleCellBlur rows dr dc
        (runInputs rows dr dc g rowData colDef (focusStep rows g rowData colDef st0 t) inputs).orig
        (runInputs rows dr dc g rowData colDef (focusStep rows g rowData colDef st0 t) inputs).errs
        g rowData colDef t
      = { cellErrors :=
            (runInputs rows dr dc g rowData colDef (focusStep rows g rowData colDef st0 t)
              inputs).errs,
          commit := none } := by
  have horig := runInputs_preserves_orig rows dr dc g rowData colDef
    (focusStep rows g rowData colDef st0 t) inputs
  rcases hfind : findTableRow rows rowData with _ | tr
  · simp [handleCellBlur, hfind]
  · have hfocus : (focusStep rows g rowData colDef st0 t).orig
        = setOrigEntry st0.orig g tr.id (getColumnKey colDef) t := by
      simp [focusStep, handleCellFocus, hfind]
    have hlookup : (runInputs rows dr dc g rowData colDef
        (focusStep rows g rowData colDef st0 t) inputs).orig g tr.id (getColumnKey colDef)
        = some t := by
      rw [horig, hfocus]
      simp [setOrigEntry]
    by_cases hdis : (isRowDisabled dr g tr.index || dc.contains (getColumnKey colDef)) = true
    · simp only [handleCellBlur, hfind]
      rw [if_pos hdis]
    · simp only [handleCellBlur, hfind]
      rw [if_neg hdis, hlookup]
      simp

/-- Claim C3 witness: a session on the rate cell of "row-2" — focus with
"93", three input events, blur with "93" again — commits nothing and leaves
the post-input error state untouched. -/
theorem unchanged_text_blur_is_noop_witness :
    handleCellBlur demoRows none []
        (runInputs demoRows none [] "ungrouped" 101 rateColumn
          (focusStep demoRows "ungrouped" 101 rateColumn
            { orig := emptyOrigMap, errs := emptyErrMap } "93") ["9", "934", "93"]).orig
        (runInputs demoRows none [] "ungrouped" 101 rateColumn
          (focusStep demoRows "ungrouped" 101 rateColumn
            { orig := emptyOrigMap, errs := emptyErrMap } "93") ["9", "934", "93"]).errs
        "ungrouped" 101 rateColumn "93"
      = { cellErrors :=
            (runInputs demoRows none [] "ungrouped" 101 rateColumn
              (focusStep demoRows "ungrouped" 101 rateColumn
                { orig := emptyOrigMap, errs := emptyErrMap } "93") ["9", "934", "93"]).errs,
          commit := none } :=
  unchanged_text_blur_is_noop demoRows none [] { orig := emptyOrigMap, errs := emptyErrMap }
    "ungrouped" 101 rateColumn "93" ["9", "934", "93"]

/-- Claim C5: a disabled cell (row disabled or column disabled) is rendered
with `contentEditable` false — so the browser delivers it no keydown, paste,
input or blur events and keystroke filtering and paste sanitization never
run for it — and even at the handler level an input event leaves the error
state untouched and a blur commits nothing and changes nothing. -/
theorem disabled_cell_never_edits
    (rows : List TanRow) (dr : Option DisabledRows) (dc : List String)
    (origMap : OrigMap) (errMap : ErrMap) (g : String) (rowData : Nat)
    (colDef : ColumnDef) (raw : String) (tr : TanRow)
    (hfind : findTableRow rows rowData = some tr)
    (hdis : cellIsDisabled dr dc g tr.index (getColumnKey colDef) = true) :
    cellContentEditable dr dc g tr.index (getColumnKey colDef) = false
    ∧ handleCellInput rows dr dc errMap g rowData colDef raw = errMap
    ∧ handleCellBlur rows dr dc origMap errMap g rowData colDef raw
        = { cellErrors := errMap, commit := none } := by
  have hdis2 : (isRowDisabled dr g tr.index || dc.contains (getColumnKey colDef)) = true := by
    simpa [cellIsDisabled] using hdis
  refine ⟨?_, ?_, ?_⟩
  · simp [cellContentEditable, hdis]
  · simp only [handleCellInput, hfind]
    rw [if_pos hdis2]
  · simp only [handleCellBlur, hfind]
    rw [if_pos hdis2]

/-- Claim C5 witness: with `disabledRows = [1]` (flat shape) the rate cell
of "row-2" (index 1) is inert. -/
theorem disabled_cell_never_edits_witness :
    (findTableRow demoRows 101 = some { id := "row-2", index := 1, original := 101 }
      ∧ cellIsDisabled (some (.flat [1])) [] "ungrouped" 1 (getColumnKey rateColumn) = true)
    ∧ (cellContentEditable (some (.flat [1])) [] "ungrouped" 1 (getColumnKey rateColumn) = false
      ∧ handleCellInput demoRows (some (.flat [1])) [] emptyErrMap "ungrouped" 101 rateColumn
          "200" = emptyErrMap
      ∧ handleCellBlur demoRows (some (.flat [1])) [] demoOrigMap emptyErrMap "ungrouped" 101
          rateColumn "200" = { cellErrors := emptyErrMap, commit := none }) :=
  ⟨⟨by decide, by decide⟩,
    disabled_cell_never_edits demoRows (some (.flat [1])) [] demoOrigMap emptyErrMap "ungrouped"
      101 rateColumn "200" { id := "row-2", index := 1, original := 101 }
      (by decide) (by decide)⟩

/-- Claim C7: every lookup miss is a silent no-op: a blur whose row is not
in the row model leaves the error state unchanged and commits nothing, and
`addSubRowToRow` / `removeRowRecursively` with an id absent from the tree
return the tree unchanged. -/
theorem lookup_miss_is_silent_noop
    (rows : List TanRow) (dr : Option DisabledRows) (dc : List String)
    (origMap : OrigMap) (errMap : ErrMap) (g : String) (rowData : Nat)
    (colDef : ColumnDef) (raw : String)
    (tree : List RowData) (pid tid fresh : String)
    (hrow : findTableRow rows rowData = none)
    (hpid : pid ∉ idsOf tree) (htid : tid ∉ idsOf tree) :
    handleCellBlur rows dr dc origMap errMap g rowData colDef raw
        = { cellErrors := errMap, commit := none }
    ∧ addSubRowToRow tree pid fresh = tree
    ∧ removeRowRecursively tree tid = tree :=
  ⟨by simp [handleCellBlur, hrow],
   addSubRowToRow_not_mem tree pid fresh hpid,
   removeRowRecursively_not_mem tree tid htid⟩

/-- Claim C7 witness: blurring a removed row (token 999) and mutating with
the absent id "zzz" are no-ops. -/
theorem lookup_miss_is_silent_noop_witness :
    (findTableRow demoRows 999 = none ∧ "zzz" ∉ idsOf demoTree)
    ∧ (handleCellBlur demoRows none [] demoOrigMap emptyErrMap "ungrouped" 999 rateColumn "200"
        = { cellErrors := emptyErrMap, commit := none }
      ∧ addSubRowToRow demoTree "zzz" "fresh-id" = demoTree
      ∧ removeRowRecursively demoTree "zzz" = demoTree) :=
  ⟨⟨by decide, by simp [demoTree, idsOf]⟩,
    lookup_miss_is_silent_noop demoRows none [] demoOrigMap emptyErrMap "ungrouped" 999
      rateColumn "200" demoTree "zzz" "zzz" "fresh-id" (by decide) (by simp [demoTree, idsOf])
      (by simp [demoTree, idsOf])⟩

/-- Claim C8 witness: after removing the nested row "row-2.1" from the demo
tree, a depth-first find for it returns not-found. -/
theorem removeRow_then_find_returns_none_witness :
    findRowById (removeRowRecursively demoTree "row-2.1") "row-2.1" = none :=
  removeRow_then_find_returns_none demoTree "row-2.1"

/-- Claim C9: when the tree has a node with id `parentId` and the generated
id is fresh (the source generates it with `nanoid()`, commented "guaranteed
unique"), `addSubRowToRow` appends exactly one new child at the end of that
node's children, leaves the existing children in place, and the new child's
id differs from every id already in the tree. -/
theorem addSubRow_appends_unique_child (tree : List RowData) (pid fresh : String)
    (i mn : String) (c rt am : Rat) (subs : List RowData)
    (hfind : findRowById tree pid = some (.mk i mn c rt am subs))
    (hfresh : fresh ∉ idsOf tree) :
    findRowById (addSubRowToRow tree pid fresh) pid
        = some (.mk i mn c rt am (subs ++ [newSubRow fresh]))
    ∧ (subs ++ [newSubRow fresh]).length = subs.length + 1
    ∧ (newSubRow fresh).id ∉ idsOf tree := by
  refine ⟨findRowById_addSubRowToRow tree pid fresh i mn c rt am subs hfind hfresh, by simp, ?_⟩
  simpa [newSubRow, RowData.id] using hfresh

/-- Claim C9 witness: adding a sub-row under the nested "row-2.1" appends
one fresh child there. -/
theorem addSubRow_appends_unique_child_witness :
    (findRowById demoTree "row-2.1"
        = some (.mk "row-2.1" "NC Thinner 1" 3 94 20 []) ∧ "fresh-id" ∉ idsOf demoTree)
    ∧ (findRowById (addSubRowToRow demoTree "row-2.1" "fresh-id") "row-2.1"
        = some (.mk "row-2.1" "NC Thinner 1" 3 94 20 ([] ++ [newSubRow "fresh-id"]))
      ∧ (([] : List RowData) ++ [newSubRow "fresh-id"]).length = ([] : List RowData).length + 1
      ∧ (newSubRow "fresh-id").id ∉ idsOf demoTree) :=
  ⟨⟨by simp [demoTree, findRowById], by simp [demoTree, idsOf]⟩,
    addSubRow_appends_unique_child demoTree "row-2.1" "fresh-id" "row-2.1" "NC Thinner 1"
      3 94 20 [] (by simp [demoTree, findRowById]) (by simp [demoTree, idsOf])⟩

/-- Claim C4 (code evaluation): an optional numeric validator is a
`ZodOptional` wrapper, so its `_def.typeName` is not "ZodNumber" and
`parseAndValidate` performs no empty-to-undefined coercion: empty text
stays the string "" and `safeParse` reports an invalid-type error, so the
blur never commits — against the claim, which expects coercion to
`undefined` and a null error. A required numeric validator behaves as the
claim says: empty text coerces to `undefined` and is rejected with the
validator's own required message. -/
theorem optional_numeric_empty_text_not_coerced :
    cftOptionalSchema.typeName = "ZodOptional"
    ∧ parseAndValidate "" cftOptionalColumn
        = { parsedValue := .str "", errorMessage := some "Expected number, received string" }
    ∧ parseAndValidate "   " cftOptionalColumn
        = { parsedValue := .str "   ", errorMessage := some "Expected number, received string" }
    ∧ parseAndValidate "" cftRequiredColumn
        = { parsedValue := .undef, errorMessage := some "Required" }
    ∧ (handleCellBlur demoRows none [] demoCftOrigMap emptyErrMap "ungrouped" 101
        cftOptionalColumn "").commit = none := by
  refine ⟨rfl, by decide, by decide, by decide, by decide⟩

/-- Claim C6 counterexample: the specification's allowlist reads "arrows",
but the code's `allowedKeys` holds only `ArrowLeft`/`ArrowRight` — a plain
`ArrowUp` on the numeric rate column is rejected (preventDefault) even
though the claim's allowlist admits it. -/
theorem arrowup_rejected_on_numeric_column :
    cellOnKeyDown { key := "ArrowUp", ctrlKey := false, metaKey := false } rateColumn = true
    ∧ specKeyRejectedOnNumeric { key := "ArrowUp", ctrlKey := false, metaKey := false }
        = false := by
  decide

/-- Claim C6 (amended): on a numeric column a keydown is rejected exactly
when it is not a digit, not ".", not "-", and not one of backspace, delete,
ArrowLeft, ArrowRight, tab, home, end (up/down arrows are rejected); and
any Ctrl/Meta combination with a/c/x/z/v — select-all, copy, cut, undo,
paste — always passes through unblocked. -/
theorem numeric_keydown_allowlist_amended (e : KeyEvent) (colDef : ColumnDef)
    (schema : ZodSchema) (hs : colDef.validationSchema = some schema)
    (hnum : schema.typeName = "ZodNumber") :
    (((e.ctrlKey || e.metaKey) && (["a", "c", "x", "z", "v"].contains (jsToLower e.key))) = true →
      cellOnKeyDown e colDef = false)
    ∧ (((e.ctrlKey || e.metaKey) && (["a", "c", "x", "z", "v"].contains (jsToLower e.key))) = false →
      (cellOnKeyDown e colDef = true ↔
        ¬(isDigitKey e.key = true ∨ e.key = "." ∨ e.key = "-"
          ∨ e.key ∈ ["Backspace", "Delete", "ArrowLeft", "ArrowRight", "Tab", "Home", "End"]))) := by
  constructor
  · intro hacc
    simp only [cellOnKeyDown]
    rw [if_pos hacc]
  · intro hacc
    simp only [cellOnKeyDown]
    rw [if_neg (ne_true_of_eq_false hacc)]
    simp only [handleKeyDown, hs, hnum, if_pos]
    simp only [allowedKeys, Bool.and_eq_true, Bool.not_eq_true', Bool.eq_false_iff, ne_eq,
      List.elem_iff, List.contains, List.mem_cons, List.not_mem_nil, or_false]
    tauto

/-- Claim C6 witness: the plain key "x" on the rate column satisfies the
hypotheses, and the amended characterization instantiates there. -/
theorem numeric_keydown_allowlist_amended_witness :
    (rateColumn.validationSchema = some rateSchema ∧ rateSchema.typeName = "ZodNumber")
    ∧ ((((KeyEvent.mk "x" false false).ctrlKey || (KeyEvent.mk "x" false false).metaKey)
          && (["a", "c", "x", "z", "v"].contains (jsToLower (KeyEvent.mk "x" false false).key)))
            = true →
        cellOnKeyDown (KeyEvent.mk "x" false false) rateColumn = false)
    ∧ ((((KeyEvent.mk "x" false false).ctrlKey || (KeyEvent.mk "x" false false).metaKey)
          && (["a", "c", "x", "z", "v"].contains (jsToLower (KeyEvent.mk "x" false false).key)))
            = false →
        (cellOnKeyDown (KeyEvent.mk "x" false false) rateColumn = true ↔
          ¬(isDigitKey (KeyEvent.mk "x" false false).key = true
            ∨ (KeyEvent.mk "x" false false).key = "."
            ∨ (KeyEvent.mk "x" false false).key = "-"
            ∨ (KeyEvent.mk "x" false false).key
                ∈ ["Backspace", "Delete", "ArrowLeft", "ArrowRight", "Tab", "Home", "End"]))) :=
  ⟨⟨rfl, rfl⟩,
    (numeric_keydown_allowlist_amended (KeyEvent.mk "x" false false) rateColumn rateSchema
      rfl rfl).1,
    (numeric_keydown_allowlist_amended (KeyEvent.mk "x" false false) rateColumn rateSchema
      rfl rfl).2⟩

/-- Claim C10: on a numeric column, any raw text with a parsable decimal
leading part ("12abc") is coerced by `parseAndValidate` to that number via
`parseFloat`, not treated as a parse failure; when the validator accepts
the number, a changed-text blur records no error and commits that number. -/
theorem float_leading_part_coerced_and_committed
    (raw : String) (colDef : ColumnDef) (schema : ZodSchema) (q : Rat)
    (rows : List TanRow) (dr : Option DisabledRows) (dc : List String)
    (origMap : OrigMap) (errMap : ErrMap) (g : String) (rowData : Nat) (tr : TanRow)
    (hs : colDef.validationSchema = some schema)
    (hnum : schema.typeName = "ZodNumber")
    (hne : ¬ jsTrim raw = "")
    (hparse : parseFloatJS raw = some q)
    (hok : schema.safeParse (.num q) = none)
    (hfind : findTableRow rows rowData = some tr)
    (hdis : cellIsDisabled dr dc g tr.index (getColumnKey colDef) = false)
    (hchanged : ¬ raw = (origMap g tr.id (getColumnKey colDef)).getD "") :
    parseAndValidate raw colDef = { parsedValue := .num q, errorMessage := none }
    ∧ (handleCellBlur rows dr dc origMap errMap g rowData colDef raw).commit
        = some (JsArg.numIdx tr.index, getColumnKey colDef, JValue.num q) := by
  have hpv : parseAndValidate raw colDef
      = { parsedValue := .num q, errorMessage := none } := by
    simp [parseAndValidate, hs, hnum, hne, hparse, hok]
  refine ⟨hpv, ?_⟩
  have hout := handleCellBlur_changed rows dr dc origMap errMap g rowData colDef raw tr hfind
    (by simpa [cellIsDisabled] using hdis) hchanged
  rw [hout, hpv]

/-- Claim C10 witness: the text "12abc" on the rate cell of "row-2" parses
to 12, validates, and commits 12. -/
theorem float_leading_part_coerced_and_committed_witness :
    (rateColumn.validationSchema = some rateSchema
      ∧ rateSchema.typeName = "ZodNumber"
      ∧ ¬ jsTrim "12abc" = ""
      ∧ parseFloatJS "12abc" = some 12
      ∧ rateSchema.safeParse (.num 12) = none
      ∧ findTableRow demoRows 101 = some { id := "row-2", index := 1, original := 101 }
      ∧ cellIsDisabled none [] "ungrouped" 1 (getColumnKey rateColumn) = false
      ∧ ¬ "12abc" = ((demoOrigMap "ungrouped" "row-2" (getColumnKey rateColumn)).getD ""))
    ∧ (parseAndValidate "12abc" rateColumn
        = { parsedValue := .num 12, errorMessage := none }
      ∧ (handleCellBlur demoRows none [] demoOrigMap emptyErrMap "ungrouped" 101 rateColumn
          "12abc").commit = some (JsArg.numIdx 1, getColumnKey rateColumn, JValue.num 12)) :=
  ⟨⟨rfl, rfl, by decide, by decide, by decide, by decide, by decide, by decide⟩,
    float_leading_part_coerced_and_committed "12abc" rateColumn rateSchema 12 demoRows none []
      demoOrigMap emptyErrMap "ungrouped" 101 { id := "row-2", index := 1, original := 101 }
      rfl rfl (by decide) (by decide) (by decide) (by decide) (by decide) (by decide)⟩
